import Mathlib

/-!
Verification of the task-pool manager (`src/kernel/src/task/manager.rs`) of a
small x86_64 kernel.  The `TaskManager` owns a pool of task control blocks
(TCBs): an empty-queue of recyclable TCBs, an id → TCB map, and the counters
`use_count` (live TCBs) and `alloc_count` (wrapping id source).

The manager itself (`new`, `allocate`, `free`, `get`) is translated directly
from the source.  The TCB type (`Task`), its CPU/FPU context types, and the
heap allocator live outside the provided sources, so they are modelled from
the specification; the manager only ever sets their fields, so only the field
inventory matters here.

Machine integers: the manager runs on x86_64, so `usize` and `u64` are both
64-bit.  `alloc_count` is advanced with `wrapping_add(1)` in the source and is
therefore reduced modulo `2 ^ 64`; `use_count -= 1` is an unchecked `usize`
subtraction, whose underflow (a fault: panic under overflow checks) is
modelled by `free` returning `none`.
-/

namespace Ros

/-- `TASKPOOL_SIZE` from manager.rs: capacity of the task pool (`POOL_MAX`). -/
def TASKPOOL_SIZE : Nat := 1024

/-- Modulus of 64-bit machine integers (`usize` / `u64` on x86_64). -/
def U64MOD : Nat := 2 ^ 64

/-- Modelled from the spec: the per-task CPU context (`Context` is not under
src/).  §3 describes it as a snapshot of general-purpose and segment registers
plus instruction pointer, stack pointer, and flags.  Register values are
natural numbers; only the field inventory matters to the manager. -/
structure Context where
  gp_regs : List Nat
  segment_regs : List Nat
  rip : Nat
  rsp : Nat
  rflags : Nat
deriving DecidableEq, Repr

/-- Modelled from the spec: `Context::empty()`, the zeroed register
snapshot that `TaskManager::free` stores into a recycled TCB. -/
def Context.empty : Context :=
  ⟨List.replicate 15 0, List.replicate 6 0, 0, 0, 0⟩

/-- Modelled from the spec: the per-task FPU context (`FPUContext` is not
under src/).  §3: an aligned save area for the extended floating/vector
state, plus the one-bit `fpu_used_once` flag. -/
structure FPUContext where
  area : List Nat
  used_once : Bool
deriving DecidableEq, Repr

/-- Modelled from the spec: `FPUContext::new()`, the architectural reset
state that `TaskManager::free` stores into a recycled TCB. -/
def FPUContext.new : FPUContext :=
  ⟨List.replicate 64 0, false⟩

/-- Modelled from the spec: the task control block (`Task` is not under
src/).  Fields are those of §3 that the manager reads or writes (`id`, the
`parent`/`child`/`sibling` lineage, the `prev`/`next` intrusive link node,
`cpu_context`, `fpu_context`) plus `flags`, the priority/state bit-set, which
the manager never touches.  Lineage and links are modelled as optional ids. -/
structure Task where
  id : Nat
  flags : Nat
  parent : Option Nat
  child : Option Nat
  sibling : Option Nat
  prev : Option Nat
  next : Option Nat
  context : Context
  fpu_context : FPUContext
deriving DecidableEq, Repr

/-- A default-initialized TCB: every field at its default/reset value. -/
def defaultTask : Task :=
  ⟨0, 0, none, none, none, none, none, Context.empty, FPUContext.new⟩

/-- Insert into the id map (`BTreeMap::insert`): replaces the value when the
key is present, otherwise appends a fresh binding. -/
def mapInsert (k : Nat) (v : Task) : List (Nat × Task) → List (Nat × Task)
  | [] => [(k, v)]
  | p :: rest => if p.1 = k then (k, v) :: rest else p :: mapInsert k v rest

/-- Remove from the id map (`BTreeMap::remove`): drops the binding of `k`. -/
def mapRemove (k : Nat) : List (Nat × Task) → List (Nat × Task)
  | [] => []
  | p :: rest => if p.1 = k then rest else p :: mapRemove k rest

/-- Lookup in the id map (`BTreeMap::get`): the value bound to `k`, if any. -/
def mapLookup (k : Nat) : List (Nat × Task) → Option Task
  | [] => none
  | p :: rest => if p.1 = k then some p.2 else mapLookup k rest

/-- `TaskManager` from manager.rs.  The empty-queue (`RawQueue<Task>`, an
intrusive FIFO whose code is not under src/) is modelled by the list of the
TCBs it holds, front first; the `BTreeMap<u64, NonNull<Task>>` id map by an
association list of the pointed-to TCB values. -/
structure TaskManager where
  empty_queue : List Task
  task_map : List (Nat × Task)
  max_count : Nat
  use_count : Nat
  alloc_count : Nat
deriving DecidableEq, Repr

/-- `TaskManager::new` from manager.rs. -/
def TaskManager.new : TaskManager :=
  ⟨[], [], TASKPOOL_SIZE, 0, 0⟩

/-- `TaskManager::allocate` from manager.rs.  `heap` is the outcome of the one
possible `malloc(size_of::<Task>(), 8)` call: `none` for a null pointer,
`some raw` for a fresh block whose (uninitialized) content reads back as
`raw`.  `Err(())` — `PoolExhausted` — is modelled as `none` in the first
component, with the manager state returned unchanged. -/
def TaskManager.allocate (m : TaskManager) (heap : Option Task) :
    Option Task × TaskManager :=
  if m.use_count ≥ TASKPOOL_SIZE then (none, m)
  else
    match m.empty_queue, heap with
    | t :: rest, _ =>
        let t' := { t with id := m.alloc_count % U64MOD }
        (some t',
         { m with
            empty_queue := rest
            task_map := mapInsert t'.id t' m.task_map
            alloc_count := (m.alloc_count + 1) % U64MOD
            use_count := m.use_count + 1 })
    | [], none => (none, m)
    | [], some raw =>
        let t' := { raw with id := m.alloc_count % U64MOD }
        (some t',
         { m with
            task_map := mapInsert t'.id t' m.task_map
            alloc_count := (m.alloc_count + 1) % U64MOD
            use_count := m.use_count + 1 })

/-- The field mutations of `TaskManager::free` on its argument: lineage and
link fields cleared, both contexts reset; `id` and `flags` are not touched. -/
def clearTask (t : Task) : Task :=
  { t with
     parent := none
     child := none
     sibling := none
     prev := none
     next := none
     context := Context.empty
     fpu_context := FPUContext.new }

/-- `TaskManager::free` from manager.rs: removes the task's id from the map,
clears the task (`clearTask`), pushes it onto the empty-queue, and decrements
`use_count`.  The unchecked `use_count -= 1` at `use_count = 0` is an
underflow fault, modelled as `none`. -/
def TaskManager.free (m : TaskManager) (t : Task) : Option TaskManager :=
  if m.use_count = 0 then none
  else
    some { m with
            task_map := mapRemove t.id m.task_map
            empty_queue := m.empty_queue ++ [clearTask t]
            use_count := m.use_count - 1 }

/-- `TaskManager::get` from manager.rs: iterates the id map and returns the
first entry whose key equals `id` (`iter_mut().find_map(...)`). -/
def TaskManager.get (m : TaskManager) (id : Nat) : Option Task :=
  (m.task_map.find? (fun p => p.1 == id)).map Prod.snd

/-- `TaskManager::iter` from manager.rs: the live tasks, in map order. -/
def TaskManager.iterTasks (m : TaskManager) : List Task :=
  m.task_map.map Prod.snd

/-- One observable operation on the manager.  `alloc` carries the heap
outcome of its potential `malloc` call; `free` carries the value of the TCB
being freed. -/
inductive Op where
  | alloc (heap : Option Task)
  | free (t : Task)
  | get (id : Nat)
  | iter
deriving DecidableEq, Repr

/-- The state transition of one operation; `none` is the underflow fault of
`free`.  `get` and `iter` do not change the manager. -/
def TaskManager.step (m : TaskManager) : Op → Option TaskManager
  | Op.alloc heap => some (m.allocate heap).2
  | Op.free t => m.free t
  | Op.get _ => some m
  | Op.iter => some m

/-- Run a sequence of operations; `none` once any step faults. -/
def run : List Op → TaskManager → Option TaskManager
  | [], m => some m
  | op :: rest, m => (m.step op).bind (run rest)

/-- A sequence is valid from `m` when every `free` in it is applied to a live
task: one whose id is bound in the id map to exactly that task value, i.e. a
task previously returned by `allocate` and not freed since. -/
def validFrom (m : TaskManager) : List Op → Bool
  | [] => true
  | Op.alloc heap :: rest => validFrom (m.allocate heap).2 rest
  | Op.free t :: rest =>
      decide (mapLookup t.id m.task_map = some t) &&
        validFrom ((m.free t).getD m) rest
  | Op.get _ :: rest => validFrom m rest
  | Op.iter :: rest => validFrom m rest

/-- The alternating trace that drives `alloc_count` up: `n` rounds, each an
`allocate` (heap handing back a default block on the first round) followed by
a `free` of the task just allocated (its id is the round number mod 2^64). -/
def pairTrace : Nat → List Op
  | 0 => []
  | n + 1 =>
      pairTrace n ++
        [Op.alloc (some defaultTask), Op.free { defaultTask with id := n % U64MOD }]

/-- The manager state after `pairTrace n`: the single recycled TCB sits in
the empty-queue, the map is empty, and `alloc_count = n % 2^64`. -/
def pairS : Nat → TaskManager
  | 0 => TaskManager.new
  | n + 1 =>
      ⟨[{ defaultTask with id := n % U64MOD }], [], TASKPOOL_SIZE, 0,
        (n + 1) % U64MOD⟩

/-- The pool-shape invariant: the id map binds at most `use_count` tasks, and
the TCBs the manager holds (live ones plus the empty-queue) number at most
`TASKPOOL_SIZE`. -/
def PoolInv (m : TaskManager) : Prop :=
  m.task_map.length ≤ m.use_count ∧
    m.use_count + m.empty_queue.length ≤ TASKPOOL_SIZE

/-! ### Lemmas about the id-map model -/

theorem mapLookup_mapInsert_self (k : Nat) (v : Task) :
    ∀ l : List (Nat × Task), mapLookup k (mapInsert k v l) = some v
  | [] => by simp [mapInsert, mapLookup]
  | p :: rest => by
      by_cases h : p.1 = k
      · simp [mapInsert, mapLookup, h]
      · simp [mapInsert, mapLookup, h, mapLookup_mapInsert_self k v rest]

theorem length_mapInsert_le (k : Nat) (v : Task) :
    ∀ l : List (Nat × Task), (mapInsert k v l).length ≤ l.length + 1
  | [] => by simp [mapInsert]
  | p :: rest => by
      by_cases h : p.1 = k
      · simp [mapInsert, h]
      · simpa [mapInsert, h] using length_mapInsert_le k v rest

theorem length_mapRemove_add_one (k : Nat) :
    ∀ l : List (Nat × Task), ∀ v : Task, mapLookup k l = some v →
      (mapRemove k l).length + 1 = l.length
  | [], v, h => by simp [mapLookup] at h
  | p :: rest, v, h => by
      by_cases hp : p.1 = k
      · simp [mapRemove, hp]
      · have h' : mapLookup k rest = some v := by
          simpa [mapLookup, hp] using h
        simpa [mapRemove, hp] using length_mapRemove_add_one k rest v h'

theorem mapLookup_pos_of_some {k : Nat} {v : Task} :
    ∀ {l : List (Nat × Task)}, mapLookup k l = some v → 0 < l.length
  | [], h => by simp [mapLookup] at h
  | _ :: _, _ => by simp

theorem mapLookup_eq_none_of_not_mem (k : Nat) :
    ∀ l : List (Nat × Task), k ∉ l.map Prod.fst → mapLookup k l = none
  | [], _ => rfl
  | p :: rest, h => by
      have hp : ¬ p.1 = k := fun hk => h (by simp [hk.symm])
      have hrest : k ∉ rest.map Prod.fst := fun hk => h (by simp [hk])
      simp [mapLookup, hp, mapLookup_eq_none_of_not_mem k rest hrest]

theorem mapLookup_mapRemove_self (k : Nat) :
    ∀ l : List (Nat × Task), (l.map Prod.fst).Nodup →
      mapLookup k (mapRemove k l) = none
  | [], _ => rfl
  | p :: rest, h => by
      rw [List.map_cons, List.nodup_cons] at h
      by_cases hp : p.1 = k
      · have : k ∉ rest.map Prod.fst := hp ▸ h.1
        simpa [mapRemove, hp] using mapLookup_eq_none_of_not_mem k rest this
      · simp [mapRemove, hp, mapLookup,
          mapLookup_mapRemove_self k rest h.2]

theorem find?_eq_mapLookup (i : Nat) :
    ∀ l : List (Nat × Task),
      (l.find? (fun p => p.1 == i)).map Prod.snd = mapLookup i l
  | [] => rfl
  | p :: rest => by
      by_cases h : p.1 = i
      · simp [List.find?_cons, mapLookup, h]
      · simpa [List.find?_cons, mapLookup, h] using find?_eq_mapLookup i rest

theorem get_eq_mapLookup (m : TaskManager) (i : Nat) :
    m.get i = mapLookup i m.task_map :=
  find?_eq_mapLookup i m.task_map

/-! ### Case analysis of a successful `allocate` -/

theorem allocate_ok (m : TaskManager) (heap : Option Task) (t : Task)
    (m' : TaskManager) (h : m.allocate heap = (some t, m')) :
    m.use_count < TASKPOOL_SIZE ∧
    t.id = m.alloc_count % U64MOD ∧
    m'.task_map = mapInsert t.id t m.task_map ∧
    m'.alloc_count = (m.alloc_count + 1) % U64MOD ∧
    m'.use_count = m.use_count + 1 ∧
    ((∃ u rest, m.empty_queue = u :: rest ∧
        t = { u with id := m.alloc_count % U64MOD } ∧ m'.empty_queue = rest) ∨
      (m.empty_queue = [] ∧ ∃ raw, heap = some raw ∧
        t = { raw with id := m.alloc_count % U64MOD } ∧ m'.empty_queue = [])) := by
  obtain ⟨q, mp, mx, uc, ac⟩ := m
  by_cases hc : TASKPOOL_SIZE ≤ uc
  · simp [TaskManager.allocate, hc] at h
  · cases q with
    | nil =>
      cases heap with
      | none => simp [TaskManager.allocate, hc] at h
      | some raw =>
        simp only [TaskManager.allocate, ge_iff_le, hc, if_false,
          Prod.mk.injEq, Option.some.injEq] at h
        obtain ⟨rfl, rfl⟩ := h
        exact ⟨Nat.lt_of_not_le hc, rfl, rfl, rfl, rfl,
          Or.inr ⟨rfl, raw, rfl, rfl, rfl⟩⟩
    | cons u rest =>
      simp only [TaskManager.allocate, ge_iff_le, hc, if_false,
        Prod.mk.injEq, Option.some.injEq] at h
      obtain ⟨rfl, rfl⟩ := h
      exact ⟨Nat.lt_of_not_le hc, rfl, rfl, rfl, rfl,
        Or.inl ⟨u, rest, rfl, rfl, rfl⟩⟩

/-! ### Preservation of the pool-shape invariant -/

theorem allocate_PoolInv (m : TaskManager) (heap : Option Task)
    (h : PoolInv m) : PoolInv (m.allocate heap).2 := by
  obtain ⟨h1, h2⟩ := h
  obtain ⟨q, mp, mx, uc, ac⟩ := m
  by_cases hc : TASKPOOL_SIZE ≤ uc
  · simpa [TaskManager.allocate, hc, PoolInv] using ⟨h1, h2⟩
  · cases q with
    | nil =>
      cases heap with
      | none => simpa [TaskManager.allocate, hc, PoolInv] using ⟨h1, h2⟩
      | some raw =>
        simp only [TaskManager.allocate, ge_iff_le, hc, if_false]
        refine ⟨?_, ?_⟩
        · simpa using Nat.le_trans (length_mapInsert_le _ _ mp)
            (Nat.succ_le_succ (by simpa using h1))
        · simpa using Nat.lt_of_not_le hc
    | cons u rest =>
      simp only [TaskManager.allocate, ge_iff_le, hc, if_false]
      refine ⟨?_, ?_⟩
      · simpa using Nat.le_trans (length_mapInsert_le _ _ mp)
          (Nat.succ_le_succ (by simpa using h1))
      · simp at h2 ⊢
        omega

theorem free_of_live (m : TaskManager) (t : Task) (hInv : PoolInv m)
    (hlive : mapLookup t.id m.task_map = some t) :
    ∃ m', m.free t = some m' ∧ PoolInv m' := by
  have hpos : 0 < m.use_count :=
    Nat.lt_of_lt_of_le (mapLookup_pos_of_some hlive) hInv.1
  have hne : m.use_count ≠ 0 := Nat.pos_iff_ne_zero.mp hpos
  refine ⟨{ m with
             task_map := mapRemove t.id m.task_map
             empty_queue := m.empty_queue ++ [clearTask t]
             use_count := m.use_count - 1 }, ?_, ?_, ?_⟩
  · simp [TaskManager.free, hne]
  · have := length_mapRemove_add_one t.id m.task_map t hlive
    have h1 := hInv.1
    simp only
    omega
  · have h2 := hInv.2
    simp only [List.length_append, List.length_singleton]
    omega

/-! ### Lemmas about operation sequences -/

theorem run_append (l₁ l₂ : List Op) :
    ∀ m : TaskManager, run (l₁ ++ l₂) m = (run l₁ m).bind (run l₂) := by
  induction l₁ with
  | nil => intro m; simp [run]
  | cons op rest ih =>
      intro m
      cases hs : m.step op with
      | none => simp [run, hs]
      | some m₁ => simp [run, hs, ih m₁]

theorem run_validFrom :
    ∀ (ops : List Op) (m : TaskManager), validFrom m ops = true → PoolInv m →
      ∃ m', run ops m = some m' ∧ PoolInv m'
  | [], m, _, hInv => ⟨m, rfl, hInv⟩
  | Op.alloc heap :: rest, m, hv, hInv => by
      obtain ⟨m', hr, hi⟩ :=
        run_validFrom rest (m.allocate heap).2
          (by simpa [validFrom] using hv) (allocate_PoolInv m heap hInv)
      exact ⟨m', by simp [run, TaskManager.step, hr], hi⟩
  | Op.free t :: rest, m, hv, hInv => by
      rw [validFrom, Bool.and_eq_true, decide_eq_true_iff] at hv
      obtain ⟨hlive, hv'⟩ := hv
      obtain ⟨m₁, hf, hi₁⟩ := free_of_live m t hInv hlive
      obtain ⟨m', hr, hi⟩ :=
        run_validFrom rest m₁ (by simpa [hf] using hv') hi₁
      exact ⟨m', by simp [run, TaskManager.step, hf, hr], hi⟩
  | Op.get i :: rest, m, hv, hInv => by
      obtain ⟨m', hr, hi⟩ :=
        run_validFrom rest m (by simpa [validFrom] using hv) hInv
      exact ⟨m', by simp [run, TaskManager.step, hr], hi⟩
  | Op.iter :: rest, m, hv, hInv => by
      obtain ⟨m', hr, hi⟩ :=
        run_validFrom rest m (by simpa [validFrom] using hv) hInv
      exact ⟨m', by simp [run, TaskManager.step, hr], hi⟩

theorem run_pairTrace : ∀ n : Nat, run (pairTrace n) TaskManager.new = some (pairS n)
  | 0 => rfl
  | n + 1 => by
      rw [pairTrace, run_append, run_pairTrace n]
      cases n with
      | zero => decide
      | succ k =>
        show run [Op.alloc (some defaultTask),
          Op.free { defaultTask with id := (k + 1) % U64MOD }] (pairS (k + 1)) =
            some (pairS (k + 2))
        have hlt : (k + 1) % U64MOD < U64MOD :=
          Nat.mod_lt _ (by simp [U64MOD])
        have hmm : (k + 1) % U64MOD % U64MOD = (k + 1) % U64MOD :=
          Nat.mod_eq_of_lt hlt
        have hsucc : ((k + 1) % U64MOD + 1) % U64MOD = (k + 2) % U64MOD := by
          simp only [U64MOD] at *
          omega
        simp [pairS, run, TaskManager.step, TaskManager.allocate,
          TaskManager.free, TASKPOOL_SIZE, mapInsert, mapRemove, hmm, hsucc,
          clearTask, defaultTask]

theorem clearTask_idem (t : Task) : clearTask (clearTask t) = clearTask t := rfl

theorem allocate_alloc_count (m : TaskManager) (heap : Option Task) :
    (m.allocate heap).2.alloc_count = m.alloc_count ∨
      (m.allocate heap).2.alloc_count = (m.alloc_count + 1) % U64MOD := by
  obtain ⟨q, mp, mx, uc, ac⟩ := m
  by_cases hc : TASKPOOL_SIZE ≤ uc
  · left; simp [TaskManager.allocate, hc]
  · cases q with
    | nil =>
      cases heap with
      | none => left; simp [TaskManager.allocate, hc]
      | some raw => right; simp [TaskManager.allocate, hc]
    | cons u rest => right; simp [TaskManager.allocate, hc]

theorem free_alloc_count (m : TaskManager) (t : Task) (m' : TaskManager)
    (h : m.free t = some m') : m'.alloc_count = m.alloc_count := by
  by_cases hz : m.use_count = 0
  · simp [TaskManager.free, hz] at h
  · rw [TaskManager.free, if_neg hz] at h
    obtain rfl := Option.some.inj h
    rfl

/-! ### The claims -/

/-- C1: calling `allocate` when `use_count` equals the pool capacity
`TASKPOOL_SIZE` (1024) returns the `PoolExhausted` error (`none`) and
mutates no manager state: `use_count`, `alloc_count`, the id map and the
empty-queue are all unchanged. -/
theorem allocate_pool_exhausted (m : TaskManager) (heap : Option Task)
    (h : m.use_count = TASKPOOL_SIZE) :
    m.allocate heap = (none, m) ∧
    (m.allocate heap).2.use_count = m.use_count ∧
    (m.allocate heap).2.alloc_count = m.alloc_count ∧
    (m.allocate heap).2.task_map = m.task_map ∧
    (m.allocate heap).2.empty_queue = m.empty_queue := by
  have hmain : m.allocate heap = (none, m) := by
    rw [TaskManager.allocate.eq_def, if_pos (h ▸ le_rfl)]
  exact ⟨hmain, by rw [hmain], by rw [hmain], by rw [hmain], by rw [hmain]⟩

/-- Witness for the C1 theorem at a concrete manager with a full pool. -/
theorem allocate_pool_exhausted_witness :
    (⟨[], [], TASKPOOL_SIZE, TASKPOOL_SIZE, 5⟩ : TaskManager).allocate
        (some defaultTask) =
      (none, (⟨[], [], TASKPOOL_SIZE, TASKPOOL_SIZE, 5⟩ : TaskManager)) :=
  (allocate_pool_exhausted _ (some defaultTask) rfl).1

/-- C2 is false as stated: `alloc_count` is a wrapping 64-bit counter.  At
the reachable state after `pairTrace (2^64 - 1)`, where `alloc_count` is
`2^64 - 1`, a further `allocate` succeeds (`isSome`), yet the post-call
`alloc_count` is `0` while the pre-call value plus one is `2^64` — the
counter did not increase by one. -/
theorem allocate_success_wrap_cex :
    (run (pairTrace (U64MOD - 1)) TaskManager.new).map
        (fun m => (m.allocate (some defaultTask)).1.isSome) = some true ∧
    (run (pairTrace (U64MOD - 1)) TaskManager.new).map
        (fun m => ((m.allocate (some defaultTask)).2.alloc_count,
          m.alloc_count + 1)) = some (0, U64MOD) ∧
    (0 : Nat) ≠ U64MOD := by
  have he : U64MOD - 1 = (U64MOD - 2) + 1 := by decide
  have h := run_pairTrace (U64MOD - 1)
  rw [he] at h
  rw [he, h]
  exact ⟨by decide, by decide, by decide⟩

/-- C2 (amended): a successful `allocate` returns a task whose id is the
pre-call `alloc_count` reduced to 64 bits (the `as u64` cast in the
source), inserts the task into the id map under that id, advances
`alloc_count` by the wrapping 64-bit increment — an increase by one except
at the wrap from `2^64 - 1` to `0` — and increments `use_count` by one. -/
theorem allocate_success_wrapped (m : TaskManager) (heap : Option Task)
    (t : Task) (m' : TaskManager) (h : m.allocate heap = (some t, m')) :
    t.id = m.alloc_count % U64MOD ∧
    mapLookup t.id m'.task_map = some t ∧
    m'.alloc_count = (m.alloc_count + 1) % U64MOD ∧
    m'.use_count = m.use_count + 1 := by
  obtain ⟨-, hid, hmap, hac, huc, -⟩ := allocate_ok m heap t m' h
  exact ⟨hid, by rw [hmap]; exact mapLookup_mapInsert_self _ _ _, hac, huc⟩

/-- Witness for the amended C2 theorem: the first allocation from a fresh
manager. -/
theorem allocate_success_wrapped_witness :
    defaultTask.id = TaskManager.new.alloc_count % U64MOD ∧
    mapLookup defaultTask.id
        (⟨[], [(0, defaultTask)], TASKPOOL_SIZE, 1, 1⟩ : TaskManager).task_map =
      some defaultTask ∧
    (⟨[], [(0, defaultTask)], TASKPOOL_SIZE, 1, 1⟩ : TaskManager).alloc_count =
      (TaskManager.new.alloc_count + 1) % U64MOD ∧
    (⟨[], [(0, defaultTask)], TASKPOOL_SIZE, 1, 1⟩ : TaskManager).use_count =
      TaskManager.new.use_count + 1 :=
  allocate_success_wrapped TaskManager.new (some defaultTask) defaultTask
    ⟨[], [(0, defaultTask)], TASKPOOL_SIZE, 1, 1⟩ (by decide)

/-- C3: `allocate` takes the TCB from the front of the empty-queue whenever
that queue is non-empty — the result then does not depend on the heap at
all — and only with an empty queue consults the heap for a fresh block,
failing with `PoolExhausted` (`none`, manager unchanged) when the heap
returns null. -/
theorem allocate_block_source (m : TaskManager) :
    (∀ heap₁ heap₂ : Option Task, m.empty_queue ≠ [] →
       m.allocate heap₁ = m.allocate heap₂) ∧
    (∀ (u : Task) (rest : List Task) (heap : Option Task),
       m.empty_queue = u :: rest → m.use_count < TASKPOOL_SIZE →
       m.allocate heap =
         (some { u with id := m.alloc_count % U64MOD },
          { m with
             empty_queue := rest
             task_map := mapInsert (m.alloc_count % U64MOD)
               { u with id := m.alloc_count % U64MOD } m.task_map
             alloc_count := (m.alloc_count + 1) % U64MOD
             use_count := m.use_count + 1 })) ∧
    (m.empty_queue = [] → m.use_count < TASKPOOL_SIZE →
       m.allocate none = (none, m)) ∧
    (∀ raw : Task, m.empty_queue = [] → m.use_count < TASKPOOL_SIZE →
       (m.allocate (some raw)).1 =
         some { raw with id := m.alloc_count % U64MOD }) := by
  obtain ⟨q, mp, mx, uc, ac⟩ := m
  refine ⟨?_, ?_, ?_, ?_⟩
  · intro heap₁ heap₂ hne
    cases q with
    | nil => exact absurd rfl hne
    | cons u rest =>
        by_cases hc : TASKPOOL_SIZE ≤ uc <;> simp [TaskManager.allocate, hc]
  · intro u rest heap hq hlt
    cases hq
    simp [TaskManager.allocate, Nat.not_le.mpr hlt]
  · intro hq hlt
    cases hq
    simp [TaskManager.allocate, Nat.not_le.mpr hlt]
  · intro raw hq hlt
    cases hq
    simp [TaskManager.allocate, Nat.not_le.mpr hlt]

/-- Witness for the C3 theorem: with a stocked queue the heap outcome is
irrelevant, and with an empty queue a null heap result is `PoolExhausted`. -/
theorem allocate_block_source_witness :
    (⟨[{ defaultTask with flags := 7 }], [], TASKPOOL_SIZE, 0, 0⟩ :
        TaskManager).allocate none =
      (⟨[{ defaultTask with flags := 7 }], [], TASKPOOL_SIZE, 0, 0⟩ :
        TaskManager).allocate (some defaultTask) ∧
    TaskManager.new.allocate none = (none, TaskManager.new) :=
  ⟨(allocate_block_source _).1 none (some defaultTask) (by decide),
   (allocate_block_source _).2.2.1 rfl (by decide)⟩

/-- C4: freeing a live allocated task removes it from the id map — a
subsequent `get` of its id returns `NotFound` (`none`) — clears its
`parent`, `child` and `sibling` lineage and its `prev`/`next` link fields,
resets `cpu_context` and `fpu_context` to their empty/initial values,
pushes the cleared TCB onto the empty-queue, and decrements `use_count` by
one. -/
theorem free_live (m : TaskManager) (t : Task)
    (_hlive : mapLookup t.id m.task_map = some t)
    (huse : 0 < m.use_count)
    (hnd : (m.task_map.map Prod.fst).Nodup) :
    ∃ m', m.free t = some m' ∧
      m'.task_map = mapRemove t.id m.task_map ∧
      m'.get t.id = none ∧
      m'.empty_queue = m.empty_queue ++ [clearTask t] ∧
      (clearTask t).parent = none ∧ (clearTask t).child = none ∧
      (clearTask t).sibling = none ∧ (clearTask t).prev = none ∧
      (clearTask t).next = none ∧
      (clearTask t).context = Context.empty ∧
      (clearTask t).fpu_context = FPUContext.new ∧
      m'.use_count + 1 = m.use_count := by
  have hne : m.use_count ≠ 0 := Nat.pos_iff_ne_zero.mp huse
  refine ⟨{ m with
             task_map := mapRemove t.id m.task_map
             empty_queue := m.empty_queue ++ [clearTask t]
             use_count := m.use_count - 1 },
    by rw [TaskManager.free, if_neg hne], rfl, ?_, rfl, rfl, rfl, rfl, rfl,
    rfl, rfl, rfl, by simp; omega⟩
  rw [get_eq_mapLookup]
  exact mapLookup_mapRemove_self t.id m.task_map hnd

/-- Witness for the C4 theorem: freeing the only live task of a one-task
manager makes its id unresolvable. -/
theorem free_live_witness :
    (⟨[{ defaultTask with id := 5 }], [], TASKPOOL_SIZE, 0, 6⟩ :
      TaskManager).get 5 = none := by
  have hconc : (⟨[], [(5, { defaultTask with id := 5 })], TASKPOOL_SIZE, 1, 6⟩ :
      TaskManager).free { defaultTask with id := 5 } =
      some ⟨[{ defaultTask with id := 5 }], [], TASKPOOL_SIZE, 0, 6⟩ := by
    decide
  obtain ⟨m', hf, -, hget, -, -, -, -, -, -, -, -, -⟩ :=
    free_live ⟨[], [(5, { defaultTask with id := 5 })], TASKPOOL_SIZE, 1, 6⟩
      { defaultTask with id := 5 } (by decide) (by decide) (by decide)
  rw [hconc] at hf
  obtain rfl := Option.some.inj hf
  exact hget

/-- C5: `get` behaves exactly as an id-map lookup: it yields the task bound
to the id when present — in particular a freshly allocated task is
retrievable under its id — and `NotFound` (`none`) for every id not bound
in the map. -/
theorem get_is_map_lookup (m : TaskManager) (i : Nat) :
    m.get i = mapLookup i m.task_map ∧
    (mapLookup i m.task_map = none → m.get i = none) ∧
    (∀ (heap : Option Task) (t : Task) (m₂ : TaskManager),
       m.allocate heap = (some t, m₂) → m₂.get t.id = some t) := by
  refine ⟨get_eq_mapLookup m i, ?_, ?_⟩
  · intro h
    rw [get_eq_mapLookup, h]
  · intro heap t m₂ h
    obtain ⟨-, -, hmap, -, -, -⟩ := allocate_ok m heap t m₂ h
    rw [get_eq_mapLookup, hmap]
    exact mapLookup_mapInsert_self _ _ _

/-- Witness for the C5 theorem: lookups on a fresh manager and retrieval of
the first allocated task. -/
theorem get_is_map_lookup_witness :
    TaskManager.new.get 3 = mapLookup 3 TaskManager.new.task_map ∧
    TaskManager.new.get 3 = none ∧
    (⟨[], [(0, defaultTask)], TASKPOOL_SIZE, 1, 1⟩ : TaskManager).get
        defaultTask.id = some defaultTask :=
  ⟨(get_is_map_lookup TaskManager.new 3).1,
   (get_is_map_lookup TaskManager.new 3).2.1 rfl,
   (get_is_map_lookup TaskManager.new 3).2.2 (some defaultTask) defaultTask
     ⟨[], [(0, defaultTask)], TASKPOOL_SIZE, 1, 1⟩ (by decide)⟩

/-- C6 is false as stated: `alloc_count` is a wrapping 64-bit counter
(`wrapping_add(1)` in the source).  Starting from `TaskManager.new`, the
concrete sequence `pairTrace (2^64 - 1)` — one allocate/free round per id —
leaves `alloc_count` at `2^64 - 1`, and the allocate of one further round
wraps it to `0`: that operation makes `alloc_count` smaller. -/
theorem alloc_count_wrap_cex :
    (run (pairTrace (U64MOD - 1)) TaskManager.new).map TaskManager.alloc_count =
      some (U64MOD - 1) ∧
    ((run (pairTrace (U64MOD - 1)) TaskManager.new).bind
        (fun m => m.step (Op.alloc (some defaultTask)))).map
        TaskManager.alloc_count = some 0 := by
  have he : U64MOD - 1 = (U64MOD - 2) + 1 := by decide
  have h := run_pairTrace (U64MOD - 1)
  rw [he] at h
  rw [he, h]
  exact ⟨by decide, by decide⟩

/-- C6 (amended): no operation makes `alloc_count` smaller as long as
`alloc_count` is below its 64-bit maximum `2^64 - 1`; the only decrease is
the wrapping increment of the `2^64`-th successful `allocate`, which takes
`2^64 - 1` to `0`. -/
theorem alloc_count_step_mono (m : TaskManager) (op : Op) (m' : TaskManager)
    (h : m.step op = some m') (hw : m.alloc_count + 1 < U64MOD) :
    m.alloc_count ≤ m'.alloc_count := by
  cases op with
  | alloc heap =>
      have hm' : m' = (m.allocate heap).2 := by
        have := h
        simp only [TaskManager.step, Option.some.injEq] at this
        exact this.symm
      subst hm'
      rcases allocate_alloc_count m heap with he | he <;> rw [he]
      rw [Nat.mod_eq_of_lt hw]
      omega
  | free t =>
      have hfree : m.free t = some m' := by
        simpa [TaskManager.step] using h
      rw [free_alloc_count m t m' hfree]
  | get i =>
      have hm' : m' = m := by
        simp only [TaskManager.step, Option.some.injEq] at h
        exact h.symm
      rw [hm']
  | iter =>
      have hm' : m' = m := by
        simp only [TaskManager.step, Option.some.injEq] at h
        exact h.symm
      rw [hm']

/-- Witness for the amended C6 theorem: the first allocation step. -/
theorem alloc_count_step_mono_witness :
    TaskManager.new.alloc_count ≤
      (⟨[], [(0, defaultTask)], TASKPOOL_SIZE, 1, 1⟩ : TaskManager).alloc_count :=
  alloc_count_step_mono TaskManager.new (Op.alloc (some defaultTask))
    ⟨[], [(0, defaultTask)], TASKPOOL_SIZE, 1, 1⟩ (by decide) (by decide)

/-- C7: along every operation sequence from `TaskManager.new` in which
`free` is only applied to live allocated tasks, the run completes without a
fault and `use_count` never exceeds the pool capacity `TASKPOOL_SIZE`
(1024). -/
theorem use_count_le_pool (ops : List Op)
    (hv : validFrom TaskManager.new ops = true) :
    ∃ m', run ops TaskManager.new = some m' ∧
      m'.use_count ≤ TASKPOOL_SIZE := by
  obtain ⟨m', h1, h2⟩ := run_validFrom ops TaskManager.new hv
    ⟨by simp [TaskManager.new], by simp [TaskManager.new]⟩
  exact ⟨m', h1, by have := h2.2; omega⟩

/-- Witness for the C7 theorem on a concrete valid trace. -/
theorem use_count_le_pool_witness :
    ((run [Op.alloc (some defaultTask)] TaskManager.new).map
        TaskManager.use_count).getD (TASKPOOL_SIZE + 1) ≤ TASKPOOL_SIZE := by
  obtain ⟨m', h1, h2⟩ := use_count_le_pool [Op.alloc (some defaultTask)]
    (by decide)
  rw [h1]
  simpa using h2

/-- C8 is false as stated: `allocate` initializes nothing beyond `id`.
With an empty pool queue the returned TCB comes straight from `malloc`,
whose content is arbitrary (uninitialized memory): a heap block whose
`flags` bits read as 1 yields a task whose `flags` field is 1, not the
default value 0. -/
theorem allocate_nondefault_cex :
    (TaskManager.new.allocate (some { defaultTask with flags := 1 })).1.map
        Task.flags = some 1 ∧
    defaultTask.flags = 0 := by decide

/-- C8 (amended): the only field of the returned task that `allocate`
writes is `id`; every other field keeps the prior content of the underlying
block — the head of the empty-queue, or the fresh heap block — which need
not be the default/reset value. -/
theorem allocate_frame (m : TaskManager) (heap : Option Task) (t : Task)
    (m' : TaskManager) (h : m.allocate heap = (some t, m')) :
    (∃ u rest, m.empty_queue = u :: rest ∧
       t = { u with id := m.alloc_count % U64MOD }) ∨
    (m.empty_queue = [] ∧ ∃ raw, heap = some raw ∧
       t = { raw with id := m.alloc_count % U64MOD }) := by
  obtain ⟨-, -, -, -, -, hcase⟩ := allocate_ok m heap t m' h
  rcases hcase with ⟨u, rest, h1, h2, -⟩ | ⟨h1, raw, h2, h3, -⟩
  · exact Or.inl ⟨u, rest, h1, h2⟩
  · exact Or.inr ⟨h1, raw, h2, h3⟩

/-- Witness for the amended C8 theorem: allocating from the heap block with
`flags = 5` returns that block with only `id` rewritten. -/
theorem allocate_frame_witness :
    ({ defaultTask with flags := 5, id := 0 } : Task) =
      { { defaultTask with flags := 5 } with
         id := TaskManager.new.alloc_count % U64MOD } := by
  rcases allocate_frame TaskManager.new (some { defaultTask with flags := 5 })
      { defaultTask with flags := 5, id := 0 }
      ⟨[], [(0, { defaultTask with flags := 5 })], TASKPOOL_SIZE, 1, 1⟩
      (by decide) with ⟨u, rest, hq, -⟩ | ⟨-, raw, hr, ht⟩
  · exact absurd hq (by simp [TaskManager.new])
  · obtain rfl := Option.some.inj hr
    exact ht

/-- C9: along every valid operation sequence from `TaskManager.new`, the
TCB blocks the manager holds — the live ones counted by `use_count` plus
the recycled ones in the empty-queue — never number more than
`TASKPOOL_SIZE` (1024); the heap is only consulted while fewer blocks
exist. -/
theorem pool_blocks_le (ops : List Op)
    (hv : validFrom TaskManager.new ops = true) :
    ∃ m', run ops TaskManager.new = some m' ∧
      m'.use_count + m'.empty_queue.length ≤ TASKPOOL_SIZE := by
  obtain ⟨m', h1, h2⟩ := run_validFrom ops TaskManager.new hv
    ⟨by simp [TaskManager.new], by simp [TaskManager.new]⟩
  exact ⟨m', h1, h2.2⟩

/-- Witness for the C9 theorem on a concrete allocate/free trace. -/
theorem pool_blocks_le_witness :
    ((run [Op.alloc (some defaultTask), Op.free defaultTask]
          TaskManager.new).map
        (fun m => m.use_count + m.empty_queue.length)).getD
      (TASKPOOL_SIZE + 1) ≤ TASKPOOL_SIZE := by
  obtain ⟨m', h1, h2⟩ := pool_blocks_le
    [Op.alloc (some defaultTask), Op.free defaultTask] (by decide)
  rw [h1]
  simpa using h2

/-- C10: `free` checks nothing about its argument: for any task value and
any manager with `0 < use_count` it unconditionally removes the task's id
from the map, pushes the cleared task onto the empty-queue and decrements
`use_count`; at `use_count = 0` the unchecked decrement underflows (the
modelled fault), and freeing the same task twice enqueues it on the
empty-queue twice. -/
theorem free_unchecked (m : TaskManager) (t : Task) :
    (0 < m.use_count →
       m.free t = some
         { m with
            task_map := mapRemove t.id m.task_map
            empty_queue := m.empty_queue ++ [clearTask t]
            use_count := m.use_count - 1 }) ∧
    (m.use_count = 0 → m.free t = none) ∧
    (∀ m₁ m₂ : TaskManager, 2 ≤ m.use_count → m.free t = some m₁ →
       m₁.free (clearTask t) = some m₂ →
       m₂.empty_queue = m.empty_queue ++ [clearTask t, clearTask t]) := by
  refine ⟨?_, ?_, ?_⟩
  · intro h
    rw [TaskManager.free, if_neg (Nat.pos_iff_ne_zero.mp h)]
  · intro h
    rw [TaskManager.free, if_pos h]
  · intro m₁ m₂ h2 hf1 hf2
    have hne : ¬ m.use_count = 0 := by omega
    rw [TaskManager.free, if_neg hne] at hf1
    obtain rfl := Option.some.inj hf1
    have hne₁ : ¬ m.use_count - 1 = 0 := by omega
    rw [TaskManager.free, if_neg hne₁] at hf2
    obtain rfl := Option.some.inj hf2
    simp [clearTask_idem]

/-- Witness for the C10 theorem: a double free on a manager with two live
tasks lands the same cleared TCB on the empty-queue twice. -/
theorem free_unchecked_witness :
    (⟨[clearTask defaultTask, clearTask defaultTask], [], TASKPOOL_SIZE, 0, 0⟩ :
        TaskManager).empty_queue =
      [] ++ [clearTask defaultTask, clearTask defaultTask] :=
  (free_unchecked ⟨[], [], TASKPOOL_SIZE, 2, 0⟩ defaultTask).2.2
    ⟨[clearTask defaultTask], [], TASKPOOL_SIZE, 1, 0⟩
    ⟨[clearTask defaultTask, clearTask defaultTask], [], TASKPOOL_SIZE, 0, 0⟩
    (by decide) (by decide) (by decide)

end Ros
